import Mathlib

/-!
Shallow embedding of the loss / gradient CUDA kernels of
src/win_convnet/src/layer_kernels.cu and of the host dispatch functions
around them.

Modelling conventions:
  * Device buffers are flat row-major arrays; we model them as total index
    functions of type N -> Q (a raw device pointer is a function from offsets
    to the floats stored there), and, for the memory-safety development,
    additionally as Lean lists with Option-returning indexing.
  * Machine floats are modelled by exact rationals; the hardware intrinsics
    without a closed algebraic form (the base-2 log approximation of the
    device log, and the device pow) are taken as function parameters, since
    the properties verified here do not depend on their values.
  * Each kernel is modelled by the body of its per-thread computation: the
    source guard (tx < numCases, ty < numOut) selects which threads write, and
    reappears here as a hypothesis of the theorems.  The add template
    parameter of the gradient kernels becomes an explicit Bool argument, and
    the pre-existing contents of the written buffer become an explicit input,
    so that one function yields the written value in both modes.
-/

/-- Truncation toward zero of a rational, modelling the C cast int(label)
applied to the float label values in every kernel. -/
def cInt (q : ℚ) : ℤ := if 0 ≤ q then ⌊q⌋ else ⌈q⌉

/-- Number of classes i < numOut whose value in column tx of the row-major
(numOut x numCases) buffer probs is exactly equal to maxp.  Models the loop
for i in 0..numOut-1 accumulating probs i*numCases+tx == maxp that is
repeated verbatim in kLogregCost, kRLogCost and kL2SVMCost. -/
def countEqMax (probs : ℕ → ℚ) (numCases numOut tx : ℕ) (maxp : ℚ) : ℕ :=
  (List.range numOut).countP (fun i => decide (probs (i * numCases + tx) = maxp))

/-- The correctness value written by the three cost kernels: 0 when the true
label value labelp differs from the precomputed column maximum maxp, and
otherwise 1 / (number of classes tied at the maximum).  This is the exact
branch shared by kLogregCost, kRLogCost and kL2SVMCost. -/
def tieCorrect (probs : ℕ → ℚ) (numCases numOut tx : ℕ) (labelp maxp : ℚ) : ℚ :=
  if labelp ≠ maxp then 0
  else 1 / (countEqMax probs numCases numOut tx maxp : ℚ)

/-- Per-case body of kLogregCost (layer_kernels.cu lines 41-73).  Returns the
pair (labelLogProbs tx, correctProbs tx) written by the thread for case tx.
flog stands for the device intrinsic log approximation. -/
def kLogregCost (flog : ℚ → ℚ) (probs labels maxProbs : ℕ → ℚ)
    (numCases numOut tx : ℕ) : ℚ × ℚ :=
  let label := (cInt (labels tx)).toNat
  let maxp := maxProbs tx
  let labelp := probs (label * numCases + tx)
  (flog labelp, tieCorrect probs numCases numOut tx labelp maxp)

/-- Per-case body of kRLogCost (lines 100-137).  Returns the triple
(labelLogProbs tx, correctProbs tx, probWeights tx); fpow stands for the
device intrinsic pow approximation, and 1/1000000 is the literal 1e-6. -/
def kRLogCost (flog : ℚ → ℚ) (fpow : ℚ → ℚ → ℚ) (probs labels maxProbs : ℕ → ℚ)
    (p_pow : ℚ) (numCases numOut tx : ℕ) : ℚ × ℚ × ℚ :=
  let label := (cInt (labels tx)).toNat
  let maxp := maxProbs tx
  let labelp := probs (label * numCases + tx)
  let logprob := flog labelp
  let w := fpow (-logprob + 1 / 1000000) p_pow
  (logprob, tieCorrect probs numCases numOut tx labelp maxp, w)

/-- Per-case body of kL2SVMCost (lines 75-96).  Returns the pair
(acts_out tx, correctPreds tx). -/
def kL2SVMCost (acts labels maxActs : ℕ → ℚ) (numCases numOut tx : ℕ) : ℚ × ℚ :=
  let label := (cInt (labels tx)).toNat
  let max_svm := maxActs tx
  let svm_label_value := acts (label * numCases + tx)
  let max_label_val := max (1 - svm_label_value) 0
  (max_label_val * max_label_val,
   tieCorrect acts numCases numOut tx svm_label_value max_svm)

/-- Per-cell body of kLogregCostGrad (lines 146-163): the value left in
dE_dy_l at tidx = ty*numCases+tx by the thread for (class ty, case tx).
The template parameter add selects accumulate versus overwrite. -/
def kLogregCostGrad (add : Bool) (y_l labels dE_dy_l : ℕ → ℚ)
    (numCases numOut : ℕ) (gradCoeff : ℚ) (tx ty : ℕ) : ℚ :=
  let tidx := ty * numCases + tx
  let label := cInt (labels tx)
  let v := gradCoeff * (if label = (ty : ℤ) then 1 else 0)
  let v2 := v / y_l tidx
  if add then dE_dy_l tidx + v2 else v2

/-- Per-cell body of kRLogCostGrad (lines 172-190): as kLogregCostGrad but
scaled by the per-case weight weights tx. -/
def kRLogCostGrad (add : Bool) (y_l labels dE_dy_l weights : ℕ → ℚ)
    (numCases numOut : ℕ) (gradCoeff : ℚ) (tx ty : ℕ) : ℚ :=
  let tidx := ty * numCases + tx
  let label := cInt (labels tx)
  let w := weights tx
  let v := w * gradCoeff * (if label = (ty : ℤ) then 1 else 0)
  let v2 := v / y_l tidx
  if add then dE_dy_l tidx + v2 else v2

/-- Per-cell body of kSoftmaxGrad (lines 198-217): the softmax-Jacobian
contraction, an explicit sum over all classes j followed by scaling with
y_l tidx. -/
def kSoftmaxGrad (add : Bool) (dE_dy_l y_l dE_dx_l : ℕ → ℚ)
    (numCases numOut : ℕ) (tx ty : ℕ) : ℚ :=
  let tidx := ty * numCases + tx
  let v := (List.range numOut).foldl
    (fun acc j => acc + dE_dy_l (j * numCases + tx) *
      ((if j = ty then 1 else 0) - y_l (j * numCases + tx))) 0
  let v2 := v * y_l tidx
  if add then dE_dx_l tidx + v2 else v2

/-- Per-cell body of kL2SVMGrad (lines 274-296); 3/10 is the literal .3 of
the source. -/
def kL2SVMGrad (add : Bool) (y_l labels dE_dx_l : ℕ → ℚ)
    (numCases numOut : ℕ) (gradCoeff : ℚ) (tx ty : ℕ) : ℚ :=
  let tidx := ty * numCases + tx
  let label := cInt (labels tx)
  let t : ℚ := if label = (ty : ℤ) then 1 else -1
  let act := 1 - t * y_l tidx
  let max_val := max act 0 + 3 / 10 * (if act > 0 then 1 else 0)
  let v := gradCoeff * t * max_val
  if add then dE_dx_l tidx + v else v

/-- Per-cell body of kLogregSoftmaxGrad (lines 305-321), the fused
log-loss + softmax gradient. -/
def kLogregSoftmaxGrad (add : Bool) (y_l labels dE_dx_l : ℕ → ℚ)
    (numCases numOut : ℕ) (gradCoeff : ℚ) (tx ty : ℕ) : ℚ :=
  let tidx := ty * numCases + tx
  let label := cInt (labels tx)
  let v := gradCoeff * ((if label = (ty : ℤ) then 1 else 0) - y_l tidx)
  if add then dE_dx_l tidx + v else v

/-- Per-cell body of kRLogSoftmaxGrad (lines 323-343): the fused gradient
scaled by the per-case weight probWeights tx. -/
def kRLogSoftmaxGrad (add : Bool) (y_l labels dE_dx_l probWeights : ℕ → ℚ)
    (numCases numOut : ℕ) (gradCoeff : ℚ) (tx ty : ℕ) : ℚ :=
  let tidx := ty * numCases + tx
  let label := cInt (labels tx)
  let p := y_l tidx
  let w := probWeights tx
  let v := gradCoeff * ((if label = (ty : ℤ) then 1 else 0) - p) * w
  if add then dE_dx_l tidx + v else v

/-- Per-element body of kEltwiseMaxGrad (lines 345-355): the incoming gradient
routed to positions where output equals input. -/
def kEltwiseMaxGrad (add : Bool) (actGrad input output target : ℕ → ℚ)
    (i : ℕ) : ℚ :=
  let v := actGrad i * (if output i = input i then 1 else 0)
  if add then target i + v else v

/-- Per-element body of kEltwiseFuncAct (lines 412-437), the composite
three-channel forward activation. -/
def kEltwiseFuncAct (input0 input1 input2 : ℕ → ℚ)
    (param0 param1 param2 param3 param4 : ℚ) (offset : ℕ) : ℚ :=
  let in0 := input0 offset
  let in1 := input1 offset
  let in2 := input2 offset
  let fm0 := max in0 0
  let fm1 := max in1 0
  let fm2 := max in2 0
  param0 * in1 + param1 * in2 + param2 * fm2 + param3 * fm0 + param4 * fm1 + in0

/-- Per-element body of kEltwiseFuncGrad (lines 439-472): the triple of
values written to target0, target1, target2 at the given offset. -/
def kEltwiseFuncGrad (actGrad input0 input1 input2 : ℕ → ℚ)
    (param0 param1 param2 param3 param4 : ℚ) (offset : ℕ) : ℚ × ℚ × ℚ :=
  let in0 := input0 offset
  let in1 := input1 offset
  let in2 := input2 offset
  let grad_next := actGrad offset
  let val0 := 1 + param3 * (if in0 > 0 then 1 else 0)
  let val1 := param0 + param4 * (if in1 > 0 then 1 else 0)
  let val2 := param1 + param2 * (if in2 > 0 then 1 else 0)
  (val0 * grad_next, val1 * grad_next, val2 * grad_next)

/-- The (numOut x numCases) buffer produced by running a per-cell gradient
kernel over the full launch grid: in the row-major layout, the flat index idx
holds the value of the thread with case index idx % numCases and class index
idx / numCases. -/
def gradBuffer (cell : ℕ → ℕ → ℚ) (numCases : ℕ) : ℕ → ℚ :=
  fun idx => cell (idx % numCases) (idx / numCases)

/-- Option-returning read of a list at a signed flat index, modelling a raw
device pointer access at an offset computed in int arithmetic: a negative or
too-large offset falls outside the buffer. -/
def getQ (xs : List ℚ) (i : ℤ) : Option ℚ :=
  if 0 ≤ i then xs[i.toNat]? else none

/-- Option-returning model of the tie-counting loop of the cost kernels over a
list-backed buffer: any out-of-bounds access of probs makes the whole count
unavailable. -/
def countEqMaxOpt (probs : List ℚ) (numCases numOut tx : ℕ) (maxp : ℚ) :
    Option ℕ :=
  (List.range numOut).foldlM
    (fun acc i => do
      let v ← probs[i * numCases + tx]?
      pure (acc + if v = maxp then 1 else 0))
    0

/-- Option-returning model of the per-case body of kLogregCost over
list-backed buffers: every flat access of the source is an Option read, so the
result is none exactly when some access is out of bounds. -/
def kLogregCostOpt (flog : ℚ → ℚ) (probs labels maxProbs : List ℚ)
    (numCases numOut tx : ℕ) : Option (ℚ × ℚ) := do
  let lab ← labels[tx]?
  let label := cInt lab
  let maxp ← maxProbs[tx]?
  let labelp ← getQ probs (label * numCases + tx)
  if labelp ≠ maxp then
    pure (flog labelp, 0)
  else do
    let numMax ← countEqMaxOpt probs numCases numOut tx maxp
    pure (flog labelp, 1 / (numMax : ℚ))

/-- Option-returning model of the per-case body of kRLogCost over list-backed
buffers. -/
def kRLogCostOpt (flog : ℚ → ℚ) (fpow : ℚ → ℚ → ℚ)
    (probs labels maxProbs : List ℚ) (p_pow : ℚ)
    (numCases numOut tx : ℕ) : Option (ℚ × ℚ × ℚ) := do
  let lab ← labels[tx]?
  let label := cInt lab
  let maxp ← maxProbs[tx]?
  let labelp ← getQ probs (label * numCases + tx)
  let logprob := flog labelp
  let w := fpow (-logprob + 1 / 1000000) p_pow
  if labelp ≠ maxp then
    pure (logprob, 0, w)
  else do
    let numMax ← countEqMaxOpt probs numCases numOut tx maxp
    pure (logprob, 1 / (numMax : ℚ), w)

/-- Option-returning model of the per-cell body of kLogregCostGrad over
list-backed buffers; with add true the pre-existing target cell is also read. -/
def kLogregCostGradOpt (add : Bool) (y_l labels dE_dy_l : List ℚ)
    (numCases numOut : ℕ) (gradCoeff : ℚ) (tx ty : ℕ) : Option ℚ := do
  let tidx := ty * numCases + tx
  let lab ← labels[tx]?
  let label := cInt lab
  let v := gradCoeff * (if label = (ty : ℤ) then 1 else 0)
  let yv ← y_l[tidx]?
  let v2 := v / yv
  if add then
    let old ← dE_dy_l[tidx]?
    pure (old + v2)
  else
    pure v2

/-- One observable step of a host dispatch function, in source order: a CPU
assertion, a fatal dimension check with a printed message, the max reduction
over the class axis, a resize to explicit dimensions, a resize to the
dimensions of another matrix, a kernel cache configuration call, a kernel
launch, the post-launch device status check cutilCheckMsg with its message,
or freeing a temporary. -/
inductive HostAction where
  | assertCheck (cond : String)
  | exitCheck (cond msg : String)
  | reduceMax (src : String)
  | resizeTo (buf : String) (rows cols : ℕ)
  | resizeLike (buf src : String)
  | cacheConfig (kernel : String)
  | launch (kernel : String)
  | checkMsg (msg : String)
  | freeBuf (buf : String)
  deriving DecidableEq

/-- True when the trace contains a post-launch device status check. -/
def hasCheckMsg : List HostAction → Bool
  | [] => false
  | HostAction.checkMsg _ :: _ => true
  | _ :: rest => hasCheckMsg rest

/-- True when every kernel launch in the trace is followed, later in the
trace, by a device status check. -/
def launchesChecked : List HostAction → Bool
  | [] => true
  | HostAction.launch _ :: rest => hasCheckMsg rest && launchesChecked rest
  | _ :: rest => launchesChecked rest

/-- True when the trace resizes (or allocates) the named buffer. -/
def resizesBuf (buf : String) : List HostAction → Bool
  | [] => false
  | HostAction.resizeTo b _ _ :: rest => b == buf || resizesBuf buf rest
  | HostAction.resizeLike b _ :: rest => b == buf || resizesBuf buf rest
  | _ :: rest => resizesBuf buf rest

/-- Action trace of computeEltwiseMaxGrad (lines 474-494). -/
def computeEltwiseMaxGradTrace (add : Bool) : List HostAction :=
  [.assertCheck "actGrad.isContiguous()", .assertCheck "output.isContiguous()",
   .assertCheck "input.isContiguous()", .assertCheck "actGrad.isSameDims(input)",
   .assertCheck "actGrad.isSameDims(output)"] ++
  (if add then
    [.assertCheck "actGrad.isSameDims(target)",
     .cacheConfig "kEltwiseMaxGrad<128, true>", .launch "kEltwiseMaxGrad<128, true>"]
   else
    [.resizeLike "target" "actGrad",
     .cacheConfig "kEltwiseMaxGrad<128, false>", .launch "kEltwiseMaxGrad<128, false>"]) ++
  [.checkMsg "computeEltwiseMaxGrad: Kernel execution failed"]

/-- Action trace of computeEltwiseFuncParamGrad (lines 496-543); the flags
record whether each conditional resize fires (the current dimensions of the
corresponding target differ from the required ones). -/
def computeEltwiseFuncParamGradTrace (m0 m1 m2 m3 m4 : Bool)
    (sizeX sizeY : ℕ) : List HostAction :=
  (if m0 then [.resizeTo "target0" sizeX sizeY] else []) ++
  (if m1 then [.resizeLike "target1" "target0"] else []) ++
  (if m2 then [.resizeLike "target2" "target0"] else []) ++
  (if m3 then [.resizeLike "target3" "target0"] else []) ++
  (if m4 then [.resizeLike "target4" "target0"] else []) ++
  [.cacheConfig "kEltwiseFuncParamGrad", .launch "kEltwiseFuncParamGrad",
   .checkMsg "kEltwiseFuncParamGrad: Kernel execution failed"]

/-- Action trace of computeEltwiseFuncAct (lines 545-566). -/
def computeEltwiseFuncActTrace (m : Bool) : List HostAction :=
  (if m then [.resizeLike "target" "input0"] else []) ++
  [.cacheConfig "kEltwiseFuncAct", .launch "kEltwiseFuncAct",
   .checkMsg "computeEltwiseFuncAct: Kernel execution failed"]

/-- Action trace of computeEltwiseFuncGrad (lines 568-600); note that the
source's post-launch check message names computeEltwiseFuncAct. -/
def computeEltwiseFuncGradTrace (m0 m1 m2 : Bool) : List HostAction :=
  (if m0 then [.resizeLike "target0" "input0"] else []) ++
  (if m1 then [.resizeLike "target1" "input1"] else []) ++
  (if m2 then [.resizeLike "target2" "input2"] else []) ++
  [.cacheConfig "kEltwiseFuncGrad", .launch "kEltwiseFuncGrad",
   .checkMsg "computeEltwiseFuncAct: Kernel execution failed"]

/-- Action trace of computeL2SVMCost (lines 602-627). -/
def computeL2SVMCostTrace (numCases : ℕ) : List HostAction :=
  [.assertCheck "labels.getNumElements() == numCases",
   .assertCheck "!labels.isTrans()", .assertCheck "!act_prev.isTrans()",
   .assertCheck "labels.isContiguous()", .assertCheck "act_prev.isContiguous()",
   .reduceMax "act_prev",
   .resizeTo "act_out" 1 numCases, .resizeTo "correctPreds_out" 1 numCases,
   .cacheConfig "kL2SVMCost", .launch "kL2SVMCost",
   .checkMsg "computeL2SVMCost: Kernel execution failed",
   .freeBuf "maxActs"]

/-- Action trace of computeLogregCost (lines 639-662). -/
def computeLogregCostTrace (numCases : ℕ) : List HostAction :=
  [.assertCheck "labels.getNumElements() == numCases",
   .assertCheck "!labels.isTrans()", .assertCheck "!probs.isTrans()",
   .assertCheck "labels.isContiguous()", .assertCheck "probs.isContiguous()",
   .reduceMax "probs",
   .resizeTo "labelLogProbs_out" 1 numCases, .resizeTo "correctProbs_out" 1 numCases,
   .cacheConfig "kLogregCost", .launch "kLogregCost",
   .checkMsg "computeLogregCost: Kernel execution failed",
   .freeBuf "maxProbs"]

/-- Action trace of computeLogregGrad (lines 664-686). -/
def computeLogregGradTrace (add : Bool) : List HostAction :=
  [.assertCheck "labels.getNumElements() == numCases",
   .assertCheck "probs.isContiguous()", .assertCheck "target.isContiguous()",
   .assertCheck "labels.isContiguous()", .assertCheck "!labels.isTrans()",
   .assertCheck "!probs.isTrans()"] ++
  (if add then [.launch "kLogregCostGrad<true>"]
   else [.resizeLike "target" "probs", .launch "kLogregCostGrad<false>"]) ++
  [.checkMsg "computeLogregGrad: Kernel execution failed"]

/-- Action trace of computeRLogCost (lines 688-713).  The source resizes
labelLogProbs_out and correctProbs_out to (1, numCases) but performs no
resize of probWeights_out before launching kRLogCost. -/
def computeRLogCostTrace (numCases : ℕ) : List HostAction :=
  [.assertCheck "labels.getNumElements() == numCases",
   .assertCheck "!labels.isTrans()", .assertCheck "!probs.isTrans()",
   .assertCheck "labels.isContiguous()", .assertCheck "probs.isContiguous()",
   .reduceMax "probs",
   .resizeTo "labelLogProbs_out" 1 numCases, .resizeTo "correctProbs_out" 1 numCases,
   .cacheConfig "kRLogCost", .launch "kRLogCost",
   .checkMsg "computeRLogCost: Kernel execution failed",
   .freeBuf "maxProbs"]

/-- Action trace of computeRLogGrad (lines 715-737); the source's check
message names computeLogregGrad. -/
def computeRLogGradTrace (add : Bool) : List HostAction :=
  [.assertCheck "labels.getNumElements() == numCases",
   .assertCheck "probs.isContiguous()", .assertCheck "target.isContiguous()",
   .assertCheck "labels.isContiguous()", .assertCheck "!labels.isTrans()",
   .assertCheck "!probs.isTrans()"] ++
  (if add then [.launch "kRLogCostGrad<true>"]
   else [.resizeLike "target" "probs", .launch "kRLogCostGrad<false>"]) ++
  [.checkMsg "computeLogregGrad: Kernel execution failed"]

/-- Action trace of computeL2SVMGrad (lines 739-760).  The source launches
kL2SVMGrad and returns without any post-launch cutilCheckMsg call. -/
def computeL2SVMGradTrace (add : Bool) : List HostAction :=
  [.assertCheck "labels.getNumElements() == numCases",
   .assertCheck "acts.isContiguous()", .assertCheck "target.isContiguous()",
   .assertCheck "labels.isContiguous()", .assertCheck "acts.isTrans()"] ++
  (if add then [.launch "kL2SVMGrad<true>"]
   else [.resizeLike "target" "acts", .launch "kL2SVMGrad<false>"])

/-- Action trace of computeSoftmaxGrad (lines 762-782). -/
def computeSoftmaxGradTrace (add : Bool) : List HostAction :=
  [.assertCheck "acts.isSameDims(actsGrad)", .assertCheck "acts.isContiguous()",
   .assertCheck "actsGrad.isContiguous()", .assertCheck "target.isContiguous()",
   .assertCheck "acts.isTrans()", .assertCheck "actsGrad.isTrans()"] ++
  (if add then [.launch "kSoftmaxGrad<true>"]
   else [.resizeLike "target" "acts", .launch "kSoftmaxGrad<false>"]) ++
  [.checkMsg "computeSoftmaxGrad: Kernel execution failed"]

/-- Action trace of computeLogregSoftmaxGrad (lines 784-805). -/
def computeLogregSoftmaxGradTrace (add : Bool) : List HostAction :=
  [.assertCheck "labels.getNumElements() == numCases",
   .assertCheck "probs.isContiguous()", .assertCheck "target.isContiguous()",
   .assertCheck "labels.isContiguous()", .assertCheck "probs.isTrans()"] ++
  (if add then [.launch "kLogregSoftmaxGrad<true>"]
   else [.resizeLike "target" "probs", .launch "kLogregSoftmaxGrad<false>"]) ++
  [.checkMsg "computeLogregSoftmaxGrad: Kernel execution failed"]

/-- Action trace of computeRLogSoftmaxGrad (lines 807-833). -/
def computeRLogSoftmaxGradTrace (add : Bool) : List HostAction :=
  [.assertCheck "labels.getNumElements() == numCases",
   .assertCheck "probs.isContiguous()", .assertCheck "target.isContiguous()",
   .assertCheck "labels.isContiguous()", .assertCheck "probs.isTrans()",
   .exitCheck "labels.isSameDims(probWeights)"
     "computeRLogSoftmaxGrad - probWeights dimesions are wrong!"] ++
  (if add then [.launch "kRLogSoftmaxGrad<true>"]
   else [.resizeLike "target" "probs", .launch "kRLogSoftmaxGrad<false>"]) ++
  [.checkMsg "computeRLogSoftmaxGrad: Kernel execution failed"]

/-- Concrete probability buffer used by witnesses: the spec scenario with
numOut = 3, numCases = 2 and columns (0.7, 0.2, 0.1) and (0.2, 0.3, 0.5),
stored row-major. -/
def wProbs : ℕ → ℚ := fun i => ([7/10, 1/5, 1/5, 3/10, 1/10, 1/2] : List ℚ).getD i 0

/-- Concrete label buffer used by witnesses: labels (0, 2). -/
def wLabels : ℕ → ℚ := fun i => ([0, 2] : List ℚ).getD i 0

/-- Concrete per-case maxima of wProbs used by witnesses. -/
def wMaxProbs : ℕ → ℚ := fun i => ([7/10, 1/2] : List ℚ).getD i 0

/-- List-backed version of wProbs used by witnesses of the Option model. -/
def wProbsList : List ℚ := [7/10, 1/5, 1/5, 3/10, 1/10, 1/2]

/-- List-backed version of wLabels used by witnesses of the Option model. -/
def wLabelsList : List ℚ := [0, 2]

/-- List-backed version of wMaxProbs used by witnesses of the Option model. -/
def wMaxList : List ℚ := [7/10, 1/2]

/-- A left fold that only adds summands equals the initial value plus the sum
of the mapped list. -/
theorem foldl_add_eq_sum (f : ℕ → ℚ) (l : List ℕ) (init : ℚ) :
    l.foldl (fun acc j => acc + f j) init = init + (l.map f).sum := by
  induction l generalizing init with
  | nil => simp
  | cons a as ih => simp [ih, add_assoc]

/-- Summing a function over the index range 0 .. n-1 when all indices except L
give zero yields the value at L. -/
theorem sum_map_range_eq_single (f : ℕ → ℚ) (n L : ℕ) (hL : L < n)
    (hz : ∀ j, j < n → j ≠ L → f j = 0) :
    ((List.range n).map f).sum = f L := by
  induction n with
  | zero => exact absurd hL (Nat.not_lt_zero L)
  | succ m ih =>
    rw [List.range_succ, List.map_append, List.sum_append]
    by_cases hLm : L = m
    · subst hLm
      have hz2 : ((List.range L).map f).sum = 0 := by
        apply List.sum_eq_zero
        intro x hx
        rcases List.mem_map.mp hx with ⟨j, hj, rfl⟩
        exact hz j (Nat.lt_succ_of_lt (List.mem_range.mp hj))
          (Nat.ne_of_lt (List.mem_range.mp hj))
      simp [hz2]
    · have hLm2 : L < m := by omega
      rw [ih hLm2 (fun j hj hne => hz j (Nat.lt_succ_of_lt hj) hne)]
      have hm : f m = 0 := hz m (Nat.lt_succ_self m) (fun h => hLm h.symm)
      simp [hm]

/-- In the row-major layout, the case coordinate of the flat index
j * numCases + tx is tx. -/
theorem flatIdx_mod (j tx numCases : ℕ) (htx : tx < numCases) :
    (j * numCases + tx) % numCases = tx := by
  rw [Nat.mul_comm j numCases, Nat.mul_add_mod, Nat.mod_eq_of_lt htx]

/-- In the row-major layout, the class coordinate of the flat index
j * numCases + tx is j. -/
theorem flatIdx_div (j tx numCases : ℕ) (htx : tx < numCases) :
    (j * numCases + tx) / numCases = j := by
  have h0 : 0 < numCases := by omega
  rw [Nat.add_comm, Nat.add_mul_div_right _ _ h0, Nat.div_eq_of_lt htx, Nat.zero_add]

/-- A flat index class * numCases + case with valid coordinates lies strictly
inside the numOut * numCases element matrix buffer. -/
theorem flatIdx_lt (i tx numCases numOut : ℕ) (hi : i < numOut) (htx : tx < numCases) :
    i * numCases + tx < numOut * numCases := by
  have h1 : i * numCases + tx < (i + 1) * numCases := by
    rw [Nat.succ_mul]; omega
  have h2 : (i + 1) * numCases ≤ numOut * numCases := Nat.mul_le_mul_right numCases hi
  omega

/-- An Option-valued left fold succeeds when every step succeeds. -/
theorem foldlM_isSome {α β : Type} (f : β → α → Option β) (l : List α)
    (h : ∀ b a, a ∈ l → (f b a).isSome) :
    ∀ init, (l.foldlM f init).isSome := by
  induction l with
  | nil => intro init; simp
  | cons x xs ih =>
    intro init
    rw [List.foldlM_cons]
    rcases Option.isSome_iff_exists.mp (h init x (List.mem_cons_self x xs)) with ⟨b, hb⟩
    rw [hb]
    simpa using ih (fun c a ha => h c a (List.mem_cons_of_mem x ha)) b

/-- Case analysis of the shared correctness computation of the three cost
kernels: zero when the label value misses the precomputed maximum, the
reciprocal of the tie count otherwise, and in all cases an element of
the set consisting of 0 and the reciprocals 1/k for 1 <= k <= numOut. -/
theorem tieCorrect_cases (probs : ℕ → ℚ) (numCases numOut tx L : ℕ)
    (maxp : ℚ) (hL : L < numOut) :
    (probs (L * numCases + tx) ≠ maxp →
      tieCorrect probs numCases numOut tx (probs (L * numCases + tx)) maxp = 0)
    ∧ (probs (L * numCases + tx) = maxp →
      tieCorrect probs numCases numOut tx (probs (L * numCases + tx)) maxp
        = 1 / (countEqMax probs numCases numOut tx maxp : ℚ))
    ∧ (tieCorrect probs numCases numOut tx (probs (L * numCases + tx)) maxp = 0
       ∨ ∃ k : ℕ, 1 ≤ k ∧ k ≤ numOut ∧
          tieCorrect probs numCases numOut tx (probs (L * numCases + tx)) maxp
            = 1 / (k : ℚ)) := by
  refine ⟨fun hne => by simp [tieCorrect, hne], fun heq => by simp [tieCorrect, heq], ?_⟩
  by_cases heq : probs (L * numCases + tx) = maxp
  · right
    refine ⟨countEqMax probs numCases numOut tx maxp, ?_, ?_, by simp [tieCorrect, heq]⟩
    · have hpos : 0 < countEqMax probs numCases numOut tx maxp := by
        rw [countEqMax, List.countP_pos_iff]
        exact ⟨L, List.mem_range.mpr hL, by simpa using heq⟩
      omega
    · calc countEqMax probs numCases numOut tx maxp
          ≤ (List.range numOut).length := List.countP_le_length _
        _ = numOut := List.length_range numOut
  · left; simp [tieCorrect, heq]

/-- With add false, kSoftmaxGrad is the sum over all classes of the Jacobian
summands, scaled by the output value of the thread's own class. -/
theorem kSoftmaxGrad_false_eq_sum (dEy y dEx : ℕ → ℚ) (numCases numOut tx ty : ℕ) :
    kSoftmaxGrad false dEy y dEx numCases numOut tx ty
      = ((List.range numOut).map (fun j => dEy (j * numCases + tx) *
          ((if j = ty then 1 else 0) - y (j * numCases + tx)))).sum
        * y (ty * numCases + tx) := by
  simp only [kSoftmaxGrad, Bool.false_eq_true, if_false]
  rw [foldl_add_eq_sum (fun j => dEy (j * numCases + tx) *
    ((if j = ty then 1 else 0) - y (j * numCases + tx))), zero_add]

/-- Claim C3: for every gradient kernel parameterized by the add flag and for
identical inputs, the value an add=true call leaves in the target cell equals
the pre-existing target contents plus the value the corresponding add=false
call would write, for kLogregCostGrad, kRLogCostGrad, kSoftmaxGrad,
kL2SVMGrad, kLogregSoftmaxGrad, kRLogSoftmaxGrad and kEltwiseMaxGrad. -/
theorem C3_add_true_accumulates
    (y labels dE weights dEy dEx actGrad input output target : ℕ → ℚ)
    (numCases numOut : ℕ) (gradCoeff : ℚ) (tx ty i : ℕ) :
    kLogregCostGrad true y labels dE numCases numOut gradCoeff tx ty
      = dE (ty * numCases + tx)
        + kLogregCostGrad false y labels dE numCases numOut gradCoeff tx ty
    ∧ kRLogCostGrad true y labels dE weights numCases numOut gradCoeff tx ty
      = dE (ty * numCases + tx)
        + kRLogCostGrad false y labels dE weights numCases numOut gradCoeff tx ty
    ∧ kSoftmaxGrad true dEy y dEx numCases numOut tx ty
      = dEx (ty * numCases + tx)
        + kSoftmaxGrad false dEy y dEx numCases numOut tx ty
    ∧ kL2SVMGrad true y labels dEx numCases numOut gradCoeff tx ty
      = dEx (ty * numCases + tx)
        + kL2SVMGrad false y labels dEx numCases numOut gradCoeff tx ty
    ∧ kLogregSoftmaxGrad true y labels dEx numCases numOut gradCoeff tx ty
      = dEx (ty * numCases + tx)
        + kLogregSoftmaxGrad false y labels dEx numCases numOut gradCoeff tx ty
    ∧ kRLogSoftmaxGrad true y labels dEx weights numCases numOut gradCoeff tx ty
      = dEx (ty * numCases + tx)
        + kRLogSoftmaxGrad false y labels dEx weights numCases numOut gradCoeff tx ty
    ∧ kEltwiseMaxGrad true actGrad input output target i
      = target i + kEltwiseMaxGrad false actGrad input output target i :=
  ⟨rfl, rfl, rfl, rfl, rfl, rfl, rfl⟩

/-- Claim C4: for every case with a valid label, kL2SVMCost writes the squared
positive part of 1 minus the true label's activation; in particular the cost
is exactly 0 when the label activation is at least 1 and equals the squared
margin when it is below 1. -/
theorem C4_l2svm_cost_hinge_squared
    (acts labels maxActs : ℕ → ℚ) (numCases numOut tx : ℕ)
    (hl0 : 0 ≤ cInt (labels tx)) (hl1 : cInt (labels tx) < (numOut : ℤ)) :
    ((kL2SVMCost acts labels maxActs numCases numOut tx).1
        = max (1 - acts ((cInt (labels tx)).toNat * numCases + tx)) 0
          * max (1 - acts ((cInt (labels tx)).toNat * numCases + tx)) 0)
    ∧ (1 ≤ acts ((cInt (labels tx)).toNat * numCases + tx) →
        (kL2SVMCost acts labels maxActs numCases numOut tx).1 = 0)
    ∧ (acts ((cInt (labels tx)).toNat * numCases + tx) < 1 →
        (kL2SVMCost acts labels maxActs numCases numOut tx).1
          = (1 - acts ((cInt (labels tx)).toNat * numCases + tx))
            * (1 - acts ((cInt (labels tx)).toNat * numCases + tx))) := by
  refine ⟨rfl, ?_, ?_⟩
  · intro h
    show max (1 - acts ((cInt (labels tx)).toNat * numCases + tx)) 0
        * max (1 - acts ((cInt (labels tx)).toNat * numCases + tx)) 0 = 0
    rw [max_eq_right (by linarith)]
    ring
  · intro h
    show max (1 - acts ((cInt (labels tx)).toNat * numCases + tx)) 0
        * max (1 - acts ((cInt (labels tx)).toNat * numCases + tx)) 0
      = (1 - acts ((cInt (labels tx)).toNat * numCases + tx))
        * (1 - acts ((cInt (labels tx)).toNat * numCases + tx))
    rw [max_eq_left (by linarith)]

/-- Witness for C4 at a concrete input: buffers of the spec scenario,
case 0, label 0, activation 0.7 below 1, so the cost is the squared margin. -/
theorem C4_l2svm_cost_hinge_squared_witness :
    (0 ≤ cInt (wLabels 0) ∧ cInt (wLabels 0) < (3 : ℤ)
      ∧ wProbs ((cInt (wLabels 0)).toNat * 2 + 0) < 1)
    ∧ (kL2SVMCost wProbs wLabels wMaxProbs 2 3 0).1
        = (1 - wProbs ((cInt (wLabels 0)).toNat * 2 + 0))
          * (1 - wProbs ((cInt (wLabels 0)).toNat * 2 + 0)) :=
  ⟨⟨by norm_num [cInt, wLabels], by norm_num [cInt, wLabels],
    by norm_num [cInt, wLabels, wProbs]⟩,
   (C4_l2svm_cost_hinge_squared wProbs wLabels wMaxProbs 2 3 0
      (by norm_num [cInt, wLabels]) (by norm_num [cInt, wLabels])).2.2
      (by norm_num [cInt, wLabels, wProbs])⟩

/-- Claim C5: for every cell with a valid label, kL2SVMGrad computes, with
t the sign indicator of class equalling the label and marg = 1 - t * y, the
value gradCoeff * t * (max marg 0 + 0.3 when marg is positive), which it
writes with add false and accumulates onto the target with add true. -/
theorem C5_l2svm_grad_formula
    (y labels dEx : ℕ → ℚ) (numCases numOut : ℕ) (gradCoeff : ℚ) (tx ty : ℕ)
    (hl0 : 0 ≤ cInt (labels tx)) (hl1 : cInt (labels tx) < (numOut : ℤ)) :
    kL2SVMGrad false y labels dEx numCases numOut gradCoeff tx ty
      = gradCoeff * (if cInt (labels tx) = (ty : ℤ) then 1 else -1)
        * (max (1 - (if cInt (labels tx) = (ty : ℤ) then (1 : ℚ) else -1)
              * y (ty * numCases + tx)) 0
           + 3 / 10 * (if 1 - (if cInt (labels tx) = (ty : ℤ) then (1 : ℚ) else -1)
              * y (ty * numCases + tx) > 0 then 1 else 0))
    ∧ kL2SVMGrad true y labels dEx numCases numOut gradCoeff tx ty
      = dEx (ty * numCases + tx)
        + gradCoeff * (if cInt (labels tx) = (ty : ℤ) then 1 else -1)
          * (max (1 - (if cInt (labels tx) = (ty : ℤ) then (1 : ℚ) else -1)
                * y (ty * numCases + tx)) 0
             + 3 / 10 * (if 1 - (if cInt (labels tx) = (ty : ℤ) then (1 : ℚ) else -1)
                * y (ty * numCases + tx) > 0 then 1 else 0)) :=
  ⟨rfl, rfl⟩

/-- Witness for C5 at a concrete input: spec-scenario buffers, cell
(class 0, case 0), label 0. -/
theorem C5_l2svm_grad_formula_witness :
    (0 ≤ cInt (wLabels 0) ∧ cInt (wLabels 0) < (3 : ℤ))
    ∧ kL2SVMGrad false wProbs wLabels wProbs 2 3 1 0 0
      = 1 * (if cInt (wLabels 0) = (0 : ℤ) then 1 else -1)
        * (max (1 - (if cInt (wLabels 0) = (0 : ℤ) then (1 : ℚ) else -1)
              * wProbs (0 * 2 + 0)) 0
           + 3 / 10 * (if 1 - (if cInt (wLabels 0) = (0 : ℤ) then (1 : ℚ) else -1)
              * wProbs (0 * 2 + 0) > 0 then 1 else 0)) :=
  ⟨⟨by norm_num [cInt, wLabels], by norm_num [cInt, wLabels]⟩,
   (C5_l2svm_grad_formula wProbs wLabels wProbs 2 3 1 0 0
      (by norm_num [cInt, wLabels]) (by norm_num [cInt, wLabels])).1⟩

/-- Claim C6: for every cell with a valid label, kLogregCostGrad with add
false writes gradCoeff times the indicator of the class equalling the label,
divided by the output value; in particular every cell off the true label row
is written with zero. -/
theorem C6_logreg_cost_grad_formula
    (y labels dE : ℕ → ℚ) (numCases numOut : ℕ) (gradCoeff : ℚ) (tx ty : ℕ)
    (hl0 : 0 ≤ cInt (labels tx)) (hl1 : cInt (labels tx) < (numOut : ℤ)) :
    kLogregCostGrad false y labels dE numCases numOut gradCoeff tx ty
      = gradCoeff * (if cInt (labels tx) = (ty : ℤ) then 1 else 0)
        / y (ty * numCases + tx)
    ∧ (cInt (labels tx) ≠ (ty : ℤ) →
        kLogregCostGrad false y labels dE numCases numOut gradCoeff tx ty = 0) := by
  refine ⟨rfl, ?_⟩
  intro hne
  show gradCoeff * (if cInt (labels tx) = (ty : ℤ) then 1 else 0)
      / y (ty * numCases + tx) = 0
  rw [if_neg hne, mul_zero, zero_div]

/-- Witness for C6 at a concrete input: spec-scenario buffers, cell
(class 1, case 0), label 0, an off-label cell written with zero. -/
theorem C6_logreg_cost_grad_formula_witness :
    (0 ≤ cInt (wLabels 0) ∧ cInt (wLabels 0) < (3 : ℤ) ∧ cInt (wLabels 0) ≠ (1 : ℤ))
    ∧ kLogregCostGrad false wProbs wLabels wProbs 2 3 1 0 1 = 0 :=
  ⟨⟨by norm_num [cInt, wLabels], by norm_num [cInt, wLabels],
    by norm_num [cInt, wLabels]⟩,
   (C6_logreg_cost_grad_formula wProbs wLabels wProbs 2 3 1 0 1
      (by norm_num [cInt, wLabels]) (by norm_num [cInt, wLabels])).2
      (by norm_num [cInt, wLabels])⟩

/-- Claim C7: kEltwiseFuncGrad multiplies the incoming gradient by the exact
partial derivative of the kEltwiseFuncAct forward formula with respect to each
input channel, with the derivative of the rectifier taken as the indicator of
strict positivity; the second, third and fourth conjuncts certify these
coefficients as the exact difference quotients of kEltwiseFuncAct under any
perturbation of one channel that keeps the channel on its linear piece. -/
theorem C7_eltwise_func_grad_partials
    (actGrad input0 input1 input2 : ℕ → ℚ) (p0 p1 p2 p3 p4 : ℚ) (offset : ℕ)
    (h0 h1 h2 : ℚ)
    (hs0a : 0 < input0 offset → 0 < input0 offset + h0)
    (hs0b : input0 offset ≤ 0 → input0 offset + h0 ≤ 0)
    (hs1a : 0 < input1 offset → 0 < input1 offset + h1)
    (hs1b : input1 offset ≤ 0 → input1 offset + h1 ≤ 0)
    (hs2a : 0 < input2 offset → 0 < input2 offset + h2)
    (hs2b : input2 offset ≤ 0 → input2 offset + h2 ≤ 0) :
    kEltwiseFuncGrad actGrad input0 input1 input2 p0 p1 p2 p3 p4 offset
      = ((1 + p3 * (if input0 offset > 0 then 1 else 0)) * actGrad offset,
         (p0 + p4 * (if input1 offset > 0 then 1 else 0)) * actGrad offset,
         (p1 + p2 * (if input2 offset > 0 then 1 else 0)) * actGrad offset)
    ∧ kEltwiseFuncAct (Function.update input0 offset (input0 offset + h0))
        input1 input2 p0 p1 p2 p3 p4 offset
        - kEltwiseFuncAct input0 input1 input2 p0 p1 p2 p3 p4 offset
      = (1 + p3 * (if input0 offset > 0 then 1 else 0)) * h0
    ∧ kEltwiseFuncAct input0 (Function.update input1 offset (input1 offset + h1))
        input2 p0 p1 p2 p3 p4 offset
        - kEltwiseFuncAct input0 input1 input2 p0 p1 p2 p3 p4 offset
      = (p0 + p4 * (if input1 offset > 0 then 1 else 0)) * h1
    ∧ kEltwiseFuncAct input0 input1 (Function.update input2 offset (input2 offset + h2))
        p0 p1 p2 p3 p4 offset
        - kEltwiseFuncAct input0 input1 input2 p0 p1 p2 p3 p4 offset
      = (p1 + p2 * (if input2 offset > 0 then 1 else 0)) * h2 := by
  refine ⟨rfl, ?_, ?_, ?_⟩
  · simp only [kEltwiseFuncAct, Function.update_same]
    rcases le_or_lt (input0 offset) 0 with hle | hlt
    · rw [if_neg (not_lt.mpr hle), max_eq_right (hs0b hle), max_eq_right hle]
      ring
    · rw [if_pos hlt, max_eq_left (hs0a hlt).le, max_eq_left hlt.le]
      ring
  · simp only [kEltwiseFuncAct, Function.update_same]
    rcases le_or_lt (input1 offset) 0 with hle | hlt
    · rw [if_neg (not_lt.mpr hle), max_eq_right (hs1b hle), max_eq_right hle]
      ring
    · rw [if_pos hlt, max_eq_left (hs1a hlt).le, max_eq_left hlt.le]
      ring
  · simp only [kEltwiseFuncAct, Function.update_same]
    rcases le_or_lt (input2 offset) 0 with hle | hlt
    · rw [if_neg (not_lt.mpr hle), max_eq_right (hs2b hle), max_eq_right hle]
      ring
    · rw [if_pos hlt, max_eq_left (hs2a hlt).le, max_eq_left hlt.le]
      ring

/-- Witness for C7 at a concrete input: all three channels hold 1/2 at
offset 0, the gradient is 1, the parameters are 1..5/10, and each channel is
perturbed by -1/4, staying on the positive linear piece. -/
theorem C7_eltwise_func_grad_partials_witness :
    ((0 < wProbs 5 → 0 < wProbs 5 + (-1/4 : ℚ))
      ∧ (wProbs 5 ≤ 0 → wProbs 5 + (-1/4 : ℚ) ≤ 0))
    ∧ kEltwiseFuncGrad wProbs wProbs wProbs wProbs (1/10) (2/10) (3/10) (4/10) (5/10) 5
      = ((1 + 4/10 * (if wProbs 5 > 0 then 1 else 0)) * wProbs 5,
         (1/10 + 5/10 * (if wProbs 5 > 0 then 1 else 0)) * wProbs 5,
         (2/10 + 3/10 * (if wProbs 5 > 0 then 1 else 0)) * wProbs 5) :=
  ⟨⟨fun h => by norm_num [wProbs], fun h => by norm_num [wProbs] at h⟩,
   (C7_eltwise_func_grad_partials wProbs wProbs wProbs wProbs
      (1/10) (2/10) (3/10) (4/10) (5/10) 5 (-1/4) (-1/4) (-1/4)
      (fun h => by norm_num [wProbs]) (fun h => by norm_num [wProbs] at h)
      (fun h => by norm_num [wProbs]) (fun h => by norm_num [wProbs] at h)
      (fun h => by norm_num [wProbs]) (fun h => by norm_num [wProbs] at h)).1⟩

/-- Claim C1: for every case with a valid label, the cost kernels kLogregCost,
kRLogCost and kL2SVMCost set the correctness output to 0 when the true label's
value in the column differs from the precomputed column maximum, and otherwise
to 1/k with k the number of classes whose column value equals that maximum;
consequently the correctness value is 0 or a reciprocal 1/k with
1 <= k <= numOut. -/
theorem C1_cost_correctness_tie_policy
    (flog : ℚ → ℚ) (fpow : ℚ → ℚ → ℚ) (probs labels maxProbs : ℕ → ℚ)
    (p_pow : ℚ) (numCases numOut tx : ℕ)
    (hl0 : 0 ≤ cInt (labels tx)) (hl1 : cInt (labels tx) < (numOut : ℤ)) :
    ((probs ((cInt (labels tx)).toNat * numCases + tx) ≠ maxProbs tx →
        (kLogregCost flog probs labels maxProbs numCases numOut tx).2 = 0)
      ∧ (probs ((cInt (labels tx)).toNat * numCases + tx) = maxProbs tx →
        (kLogregCost flog probs labels maxProbs numCases numOut tx).2
          = 1 / (countEqMax probs numCases numOut tx (maxProbs tx) : ℚ))
      ∧ ((kLogregCost flog probs labels maxProbs numCases numOut tx).2 = 0
         ∨ ∃ k : ℕ, 1 ≤ k ∧ k ≤ numOut ∧
            (kLogregCost flog probs labels maxProbs numCases numOut tx).2 = 1 / (k : ℚ)))
    ∧ ((probs ((cInt (labels tx)).toNat * numCases + tx) ≠ maxProbs tx →
        (kRLogCost flog fpow probs labels maxProbs p_pow numCases numOut tx).2.1 = 0)
      ∧ (probs ((cInt (labels tx)).toNat * numCases + tx) = maxProbs tx →
        (kRLogCost flog fpow probs labels maxProbs p_pow numCases numOut tx).2.1
          = 1 / (countEqMax probs numCases numOut tx (maxProbs tx) : ℚ))
      ∧ ((kRLogCost flog fpow probs labels maxProbs p_pow numCases numOut tx).2.1 = 0
         ∨ ∃ k : ℕ, 1 ≤ k ∧ k ≤ numOut ∧
            (kRLogCost flog fpow probs labels maxProbs p_pow numCases numOut tx).2.1
              = 1 / (k : ℚ)))
    ∧ ((probs ((cInt (labels tx)).toNat * numCases + tx) ≠ maxProbs tx →
        (kL2SVMCost probs labels maxProbs numCases numOut tx).2 = 0)
      ∧ (probs ((cInt (labels tx)).toNat * numCases + tx) = maxProbs tx →
        (kL2SVMCost probs labels maxProbs numCases numOut tx).2
          = 1 / (countEqMax probs numCases numOut tx (maxProbs tx) : ℚ))
      ∧ ((kL2SVMCost probs labels maxProbs numCases numOut tx).2 = 0
         ∨ ∃ k : ℕ, 1 ≤ k ∧ k ≤ numOut ∧
            (kL2SVMCost probs labels maxProbs numCases numOut tx).2 = 1 / (k : ℚ))) := by
  have hL : (cInt (labels tx)).toNat < numOut := by omega
  have h := tieCorrect_cases probs numCases numOut tx ((cInt (labels tx)).toNat)
    (maxProbs tx) hL
  exact ⟨⟨h.1, h.2.1, h.2.2⟩, ⟨h.1, h.2.1, h.2.2⟩, ⟨h.1, h.2.1, h.2.2⟩⟩

/-- Claim C1 witness at the spec scenario (numOut 3, numCases 2, labels 0 and
2, no ties): the hypotheses hold at case 0 and the correctness value of
kLogregCost lies in the admissible set. -/
theorem C1_cost_correctness_tie_policy_witness :
    (0 ≤ cInt (wLabels 0) ∧ cInt (wLabels 0) < (3 : ℤ))
    ∧ ((kLogregCost (fun q => q) wProbs wLabels wMaxProbs 2 3 0).2 = 0
       ∨ ∃ k : ℕ, 1 ≤ k ∧ k ≤ 3 ∧
          (kLogregCost (fun q => q) wProbs wLabels wMaxProbs 2 3 0).2 = 1 / (k : ℚ)) :=
  ⟨⟨by norm_num [cInt, wLabels], by norm_num [cInt, wLabels]⟩,
   (C1_cost_correctness_tie_policy (fun q => q) (fun a b => a) wProbs wLabels
      wMaxProbs 0 2 3 0 (by norm_num [cInt, wLabels])
      (by norm_num [cInt, wLabels])).1.2.2⟩

/-- Claim C2: for a probability matrix with positive entries in the column of
case tx, a valid label and any coefficient, the fused kernel
kLogregSoftmaxGrad with add false produces, in exact arithmetic, the same
value at every cell as kSoftmaxGrad with add false applied to the full
gradient buffer produced by kLogregCostGrad with add false. -/
theorem C2_fused_grad_eq_composition
    (y labels dE1 dE2 dE3 : ℕ → ℚ) (numCases numOut : ℕ) (gradCoeff : ℚ) (tx ty : ℕ)
    (htx : tx < numCases) (hty : ty < numOut)
    (hl0 : 0 ≤ cInt (labels tx)) (hl1 : cInt (labels tx) < (numOut : ℤ))
    (hpos : ∀ j, j < numOut → 0 < y (j * numCases + tx)) :
    kLogregSoftmaxGrad false y labels dE1 numCases numOut gradCoeff tx ty
      = kSoftmaxGrad false
          (gradBuffer (fun cx cy =>
            kLogregCostGrad false y labels dE3 numCases numOut gradCoeff cx cy) numCases)
          y dE2 numCases numOut tx ty := by
  obtain ⟨L, hLeq⟩ : ∃ L : ℕ, cInt (labels tx) = (L : ℤ) :=
    ⟨(cInt (labels tx)).toNat, (Int.toNat_of_nonneg hl0).symm⟩
  have hL : L < numOut := by omega
  have hyL : y (L * numCases + tx) ≠ 0 := ne_of_gt (hpos L hL)
  have hmapeq : (List.range numOut).map (fun j =>
        gradBuffer (fun cx cy =>
          kLogregCostGrad false y labels dE3 numCases numOut gradCoeff cx cy) numCases
          (j * numCases + tx)
        * ((if j = ty then 1 else 0) - y (j * numCases + tx)))
      = (List.range numOut).map (fun j : ℕ =>
        gradCoeff * (if cInt (labels tx) = (j : ℤ) then 1 else 0) / y (j * numCases + tx)
        * ((if j = ty then 1 else 0) - y (j * numCases + tx))) := by
    apply List.map_congr_left
    intro j hj
    simp only [gradBuffer, flatIdx_mod j tx numCases htx, flatIdx_div j tx numCases htx]
    rfl
  rw [kSoftmaxGrad_false_eq_sum, hmapeq]
  simp only [kLogregSoftmaxGrad, Bool.false_eq_true, if_false]
  rw [hLeq]
  have hz : ∀ j : ℕ, j < numOut → j ≠ L →
      gradCoeff * (if (L : ℤ) = (j : ℤ) then 1 else 0) / y (j * numCases + tx)
        * ((if j = ty then 1 else 0) - y (j * numCases + tx)) = 0 := by
    intro j hj hne
    rw [if_neg (fun h => hne (by exact_mod_cast h.symm))]
    simp
  have hsum := sum_map_range_eq_single (fun j : ℕ =>
      gradCoeff * (if (L : ℤ) = (j : ℤ) then 1 else 0) / y (j * numCases + tx)
      * ((if j = ty then 1 else 0) - y (j * numCases + tx)))
    numOut L hL hz
  have hsum2 : (List.map (fun j : ℕ =>
      gradCoeff * (if (L : ℤ) = (j : ℤ) then 1 else 0) / y (j * numCases + tx)
      * ((if j = ty then 1 else 0) - y (j * numCases + tx))) (List.range numOut)).sum
    = gradCoeff * (if (L : ℤ) = (L : ℤ) then 1 else 0) / y (L * numCases + tx)
      * ((if L = ty then 1 else 0) - y (L * numCases + tx)) := hsum
  rw [hsum2]
  by_cases hcase : L = ty
  · subst hcase
    simp only [eq_self_iff_true, if_true]
    field_simp
  · have hcast2 : ¬((L : ℤ) = (ty : ℤ)) := fun h => hcase (by exact_mod_cast h)
    simp only [if_neg hcase, if_neg hcast2, eq_self_iff_true, if_true]
    field_simp
    ring

/-- Claim C2 witness at a concrete input: two classes, one case, uniform
probabilities 1/2, label 0, coefficient 1. -/
theorem C2_fused_grad_eq_composition_witness :
    ((0 : ℕ) < 1 ∧ (0 : ℕ) < 2
      ∧ 0 ≤ cInt ((fun i => (0 : ℚ)) 0) ∧ cInt ((fun i => (0 : ℚ)) 0) < (2 : ℤ)
      ∧ ∀ j, j < 2 → 0 < (fun i => (1/2 : ℚ)) (j * 1 + 0))
    ∧ kLogregSoftmaxGrad false (fun i => (1/2 : ℚ)) (fun i => (0 : ℚ))
        (fun i => (0 : ℚ)) 1 2 1 0 0
      = kSoftmaxGrad false
          (gradBuffer (fun cx cy =>
            kLogregCostGrad false (fun i => (1/2 : ℚ)) (fun i => (0 : ℚ))
              (fun i => (0 : ℚ)) 1 2 1 cx cy) 1)
          (fun i => (1/2 : ℚ)) (fun i => (0 : ℚ)) 1 2 0 0 :=
  ⟨⟨by norm_num, by norm_num, by norm_num [cInt], by norm_num [cInt],
    fun j hj => by norm_num⟩,
   C2_fused_grad_eq_composition (fun i => (1/2 : ℚ)) (fun i => (0 : ℚ))
      (fun i => (0 : ℚ)) (fun i => (0 : ℚ)) (fun i => (0 : ℚ)) 1 2 1 0 0
      (by norm_num) (by norm_num) (by norm_num [cInt]) (by norm_num [cInt])
      (fun j hj => by norm_num)⟩

/-- The tie-counting loop of the Option model succeeds when the matrix buffer
has the full numOut * numCases length and the case index is valid. -/
theorem countEqMaxOpt_isSome (probs : List ℚ) (numCases numOut tx : ℕ) (maxp : ℚ)
    (hprobs : probs.length = numOut * numCases) (htx : tx < numCases) :
    (countEqMaxOpt probs numCases numOut tx maxp).isSome := by
  rw [countEqMaxOpt]
  refine foldlM_isSome _ _ ?_ 0
  intro b i hi
  have hi2 : i < numOut := List.mem_range.mp hi
  have hb : i * numCases + tx < probs.length := by
    rw [hprobs]; exact flatIdx_lt i tx numCases numOut hi2 htx
  rw [List.getElem?_eq_getElem hb]
  simp

/-- The label-driven access of the Option model succeeds for a valid label
value and a full-length matrix buffer. -/
theorem getQ_label_isSome (probs : List ℚ) (numCases numOut tx : ℕ) (lab : ℚ)
    (hprobs : probs.length = numOut * numCases) (htx : tx < numCases)
    (h0 : 0 ≤ cInt lab) (h1 : cInt lab < (numOut : ℤ)) :
    (getQ probs (cInt lab * numCases + tx)).isSome := by
  obtain ⟨L, hLeq⟩ : ∃ L : ℕ, cInt lab = (L : ℤ) :=
    ⟨(cInt lab).toNat, (Int.toNat_of_nonneg h0).symm⟩
  have hL : L < numOut := by omega
  rw [getQ, if_pos (show 0 ≤ cInt lab * (numCases : ℤ) + (tx : ℤ) by
    rw [hLeq]; positivity)]
  have hcast : (cInt lab * (numCases : ℤ) + (tx : ℤ)).toNat = L * numCases + tx := by
    rw [hLeq, show ((L : ℤ) * (numCases : ℤ) + (tx : ℤ))
        = ((L * numCases + tx : ℕ) : ℤ) by push_cast; ring]
    exact Int.toNat_natCast _
  rw [hcast]
  have hb : L * numCases + tx < probs.length := by
    rw [hprobs]; exact flatIdx_lt L tx numCases numOut hL htx
  rw [List.getElem?_eq_getElem hb]
  rfl

/-- Claim C10: under the guard conditions tx < numCases and ty < numOut, valid
labels, and buffers of the advertised shapes, every flat access performed by
kLogregCost, kRLogCost and kLogregCostGrad lies inside its buffer: in the
Option-indexed embedding the out-of-bounds branch is unreachable and each
kernel returns a value. -/
theorem C10_inbounds_accesses
    (flog : ℚ → ℚ) (fpow : ℚ → ℚ → ℚ) (probs labels maxProbs y_l dE : List ℚ)
    (p_pow gradCoeff : ℚ) (numCases numOut tx ty : ℕ) (add : Bool)
    (hprobs : probs.length = numOut * numCases)
    (hy : y_l.length = numOut * numCases)
    (hdE : dE.length = numOut * numCases)
    (hlabels : labels.length = numCases)
    (hmax : maxProbs.length = numCases)
    (htx : tx < numCases) (hty : ty < numOut)
    (hval : ∀ q ∈ labels, 0 ≤ cInt q ∧ cInt q < (numOut : ℤ)) :
    (kLogregCostOpt flog probs labels maxProbs numCases numOut tx).isSome
    ∧ (kRLogCostOpt flog fpow probs labels maxProbs p_pow numCases numOut tx).isSome
    ∧ (kLogregCostGradOpt add y_l labels dE numCases numOut gradCoeff tx ty).isSome := by
  have hltx : tx < labels.length := by omega
  have hlab : labels[tx]? = some (labels.get ⟨tx, hltx⟩) := by
    simp [List.getElem?_eq_getElem hltx]
  have hmem : labels.get ⟨tx, hltx⟩ ∈ labels := List.get_mem labels tx hltx
  have hv0 := (hval _ hmem).1
  have hv1 := (hval _ hmem).2
  have hmtx : tx < maxProbs.length := by omega
  have hmaxp : maxProbs[tx]? = some (maxProbs.get ⟨tx, hmtx⟩) := by
    simp [List.getElem?_eq_getElem hmtx]
  have hgq := getQ_label_isSome probs numCases numOut tx (labels.get ⟨tx, hltx⟩)
    hprobs htx hv0 hv1
  rcases Option.isSome_iff_exists.mp hgq with ⟨lp, hlp⟩
  rcases Option.isSome_iff_exists.mp (countEqMaxOpt_isSome probs numCases numOut tx
    (maxProbs.get ⟨tx, hmtx⟩) hprobs htx) with ⟨cnt, hcnt⟩
  refine ⟨?_, ?_, ?_⟩
  · simp only [kLogregCostOpt, hlab, hmaxp, hlp, hcnt,
      Option.bind_eq_bind, Option.some_bind]
    by_cases hne : lp ≠ maxProbs.get ⟨tx, hmtx⟩
    · rw [if_pos hne]; rfl
    · rw [if_neg hne]; rfl
  · simp only [kRLogCostOpt, hlab, hmaxp, hlp, hcnt,
      Option.bind_eq_bind, Option.some_bind]
    by_cases hne : lp ≠ maxProbs.get ⟨tx, hmtx⟩
    · rw [if_pos hne]; rfl
    · rw [if_neg hne]; rfl
  · have hty2 : ty * numCases + tx < y_l.length := by
      rw [hy]; exact flatIdx_lt ty tx numCases numOut hty htx
    have hde : ty * numCases + tx < dE.length := by
      rw [hdE]; exact flatIdx_lt ty tx numCases numOut hty htx
    simp only [kLogregCostGradOpt, hlab, List.getElem?_eq_getElem hty2,
      List.getElem?_eq_getElem hde, Option.bind_eq_bind, Option.some_bind]
    cases add
    · rfl
    · rfl

/-- Claim C10 witness at concrete buffers: the spec scenario lists with
numOut 3, numCases 2, case 0, class 0, add false; all three Option-model
kernels return a value. -/
theorem C10_inbounds_accesses_witness :
    (wProbsList.length = 3 * 2 ∧ wLabelsList.length = 2
      ∧ (∀ q ∈ wLabelsList, 0 ≤ cInt q ∧ cInt q < (3 : ℤ)))
    ∧ (kLogregCostOpt (fun q => q) wProbsList wLabelsList wMaxList 2 3 0).isSome
    ∧ (kRLogCostOpt (fun q => q) (fun a b => a) wProbsList wLabelsList wMaxList 0 2 3 0).isSome
    ∧ (kLogregCostGradOpt false wProbsList wLabelsList wProbsList 2 3 1 0 0).isSome :=
  ⟨⟨rfl, rfl, fun q hq => by
      simp only [wLabelsList, List.mem_cons, List.not_mem_nil, or_false] at hq
      rcases hq with rfl | rfl
      · constructor <;> norm_num [cInt]
      · constructor <;> norm_num [cInt]⟩,
   C10_inbounds_accesses (fun q => q) (fun a b => a) wProbsList wLabelsList
      wMaxList wProbsList wProbsList 0 1 2 3 0 0 false rfl rfl rfl rfl rfl
      (by norm_num) (by norm_num)
      (fun q hq => by
        simp only [wLabelsList, List.mem_cons, List.not_mem_nil, or_false] at hq
        rcases hq with rfl | rfl
        · constructor <;> norm_num [cInt]
        · constructor <;> norm_num [cInt])⟩

/-- Claim C8 counterexample: the host dispatch computeL2SVMGrad launches
kL2SVMGrad and returns without any post-launch device status check, so the
claim that every dispatch function checks the device status after each
launch is false as stated. -/
theorem C8_l2svmgrad_launch_unchecked :
    launchesChecked (computeL2SVMGradTrace false) = false := rfl

/-- Claim C8 as amended: after each kernel launch, every host dispatch
function except computeL2SVMGrad checks the device-execution status (the
fatal cutilCheckMsg call) with no retry, while computeL2SVMGrad performs no
post-launch status check at all. -/
theorem C8_dispatch_checks_after_launch_amended
    (add m0 m1 m2 m3 m4 : Bool) (sizeX sizeY numCases : ℕ) :
    launchesChecked (computeEltwiseMaxGradTrace add) = true
    ∧ launchesChecked (computeEltwiseFuncParamGradTrace m0 m1 m2 m3 m4 sizeX sizeY) = true
    ∧ launchesChecked (computeEltwiseFuncActTrace m0) = true
    ∧ launchesChecked (computeEltwiseFuncGradTrace m0 m1 m2) = true
    ∧ launchesChecked (computeL2SVMCostTrace numCases) = true
    ∧ launchesChecked (computeLogregCostTrace numCases) = true
    ∧ launchesChecked (computeLogregGradTrace add) = true
    ∧ launchesChecked (computeRLogCostTrace numCases) = true
    ∧ launchesChecked (computeRLogGradTrace add) = true
    ∧ launchesChecked (computeSoftmaxGradTrace add) = true
    ∧ launchesChecked (computeLogregSoftmaxGradTrace add) = true
    ∧ launchesChecked (computeRLogSoftmaxGradTrace add) = true
    ∧ launchesChecked (computeL2SVMGradTrace add) = false := by
  refine ⟨?_, ?_, ?_, ?_, ?_, ?_, ?_, ?_, ?_, ?_, ?_, ?_, ?_⟩
  · cases add <;> rfl
  · cases m0 <;> cases m1 <;> cases m2 <;> cases m3 <;> cases m4 <;> rfl
  · cases m0 <;> rfl
  · cases m0 <;> cases m1 <;> cases m2 <;> rfl
  · rfl
  · rfl
  · cases add <;> rfl
  · rfl
  · cases add <;> rfl
  · cases add <;> rfl
  · cases add <;> rfl
  · cases add <;> rfl
  · cases add <;> rfl

/-- Claim C9: the dispatch computeRLogCost resizes labelLogProbs_out and
correctProbs_out to shape (1, numCases) before launching kRLogCost, but it
performs no resize of its third output buffer probWeights_out, which the
kernel nevertheless writes for every case; the claim that all three output
buffers are resized is contradicted by the code. -/
theorem C9_rlogcost_probweights_not_resized :
    HostAction.resizeTo "labelLogProbs_out" 1 2 ∈ computeRLogCostTrace 2
    ∧ HostAction.resizeTo "correctProbs_out" 1 2 ∈ computeRLogCostTrace 2
    ∧ resizesBuf "probWeights_out" (computeRLogCostTrace 2) = false := by
  refine ⟨?_, ?_, rfl⟩ <;> simp [computeRLogCostTrace]
